import Mathlib

set_option maxRecDepth 4096

/-!
Verification of the RP2350 UART echo driver (`src/config.rs`, `src/uart.rs`,
`src/main.rs`).  The state machine is embedded shallowly: bytes are natural
numbers (`< 256` where it matters), the 64-bit `echo_count` field is a natural
number reduced modulo `2 ^ 64` on update (the release-profile wrapping
semantics of `+=` on `u64`), and the potential `unwrap` panic inside
`process_char` is modelled by an `Option` result.
-/

namespace RP2350Uart

/-- Constant from `config.rs`: `pub const UART_BAUD_RATE: u32 = 115200`. -/
def UART_BAUD_RATE : Nat := 115200

/-- Constant from `config.rs`: `pub const BACKSPACE: u8 = 0x08`. -/
def BACKSPACE : Nat := 0x08

/-- Constant from `config.rs`: `pub const DELETE: u8 = 0x7F`. -/
def DELETE : Nat := 0x7F

/-- Constant from `config.rs`: `pub const BACKSPACE_SEQ: [u8; 3] = [0x08, b' ', 0x08]`. -/
def BACKSPACE_SEQ : List Nat := [0x08, 0x20, 0x08]

/-- Modulus of the 64-bit `echo_count` counter. -/
def U64_MOD : Nat := 2 ^ 64

/-- State of `uart.rs` `UartController`: a single `u64` field `echo_count`,
represented as a natural number kept below `2 ^ 64` by the modular update. -/
structure UartController where
  echo_count : Nat
deriving DecidableEq

/-- Constructor from `uart.rs` `UartController::new`: zero echo count. -/
def UartController.new : UartController := { echo_count := 0 }

/-- Trait impl from `uart.rs` `impl Default for UartController`: delegates to
`new()`. -/
def UartController.default : UartController := UartController.new

/-- Static table from `uart.rs` `process_char`: the 62-entry `CHARS` array of
letter and digit byte values, in source order (uppercase, lowercase, digits). -/
def CHARS : List Nat :=
  [0x41, 0x42, 0x43, 0x44, 0x45, 0x46, 0x47, 0x48, 0x49, 0x4A, 0x4B, 0x4C,
   0x4D, 0x4E, 0x4F, 0x50, 0x51, 0x52, 0x53, 0x54, 0x55, 0x56, 0x57, 0x58,
   0x59, 0x5A, 0x61, 0x62, 0x63, 0x64, 0x65, 0x66, 0x67, 0x68, 0x69, 0x6A,
   0x6B, 0x6C, 0x6D, 0x6E, 0x6F, 0x70, 0x71, 0x72, 0x73, 0x74, 0x75, 0x76,
   0x77, 0x78, 0x79, 0x7A, 0x30, 0x31, 0x32, 0x33, 0x34, 0x35, 0x36, 0x37,
   0x38, 0x39]

/-- Range guard of the letters/digits match arm in `uart.rs` `process_char`:
`b'A'..=b'Z' | b'a'..=b'z' | b'0'..=b'9'`. -/
def isLetterOrDigit (ch : Nat) : Bool :=
  (0x41 ≤ ch && ch ≤ 0x5A) || (0x61 ≤ ch && ch ≤ 0x7A) || (0x30 ≤ ch && ch ≤ 0x39)

/-- Classification part of `uart.rs` `process_char` (lines 101-154): the
returned `&'static [u8]` slice, which depends only on the input byte.  The
letters/digits arm scans `CHARS` by value (`iter().position(..)`) and slices
one element at the found index; `none` models the `.unwrap()` panic on a
failed lookup.  The punctuation, symbol and whitespace arms mirror the source
match one literal per arm. -/
def processOutput (ch : Nat) : Option (List Nat) :=
  if ch = BACKSPACE ∨ ch = DELETE then
    some BACKSPACE_SEQ
  else if isLetterOrDigit ch then
    match CHARS.findIdx? (fun c => c == ch) with
    | some idx => some ((CHARS.drop idx).take 1)
    | none => none
  else
    match ch with
    | 0x20 => some [0x20]
    | 0x21 => some [0x21]
    | 0x22 => some [0x22]
    | 0x23 => some [0x23]
    | 0x24 => some [0x24]
    | 0x25 => some [0x25]
    | 0x26 => some [0x26]
    | 0x27 => some [0x27]
    | 0x28 => some [0x28]
    | 0x29 => some [0x29]
    | 0x2A => some [0x2A]
    | 0x2B => some [0x2B]
    | 0x2C => some [0x2C]
    | 0x2D => some [0x2D]
    | 0x2E => some [0x2E]
    | 0x2F => some [0x2F]
    | 0x3A => some [0x3A]
    | 0x3B => some [0x3B]
    | 0x3C => some [0x3C]
    | 0x3D => some [0x3D]
    | 0x3E => some [0x3E]
    | 0x3F => some [0x3F]
    | 0x40 => some [0x40]
    | 0x5B => some [0x5B]
    | 0x5C => some [0x5C]
    | 0x5D => some [0x5D]
    | 0x5E => some [0x5E]
    | 0x5F => some [0x5F]
    | 0x60 => some [0x60]
    | 0x7B => some [0x7B]
    | 0x7C => some [0x7C]
    | 0x7D => some [0x7D]
    | 0x7E => some [0x7E]
    | 0x0A => some [0x0A]
    | 0x0D => some [0x0D]
    | 0x09 => some [0x09]
    | _ => some []

/-- Method from `uart.rs` `UartController::process_char`: first increments
`echo_count` (a `u64`, hence modulo `2 ^ 64` under release-profile wrapping),
then classifies the byte; `none` models the (unreachable) `unwrap` panic. -/
def process_char (s : UartController) (ch : Nat) :
    Option (UartController × List Nat) :=
  (processOutput ch).map
    (fun out => ({ echo_count := (s.echo_count + 1) % U64_MOD }, out))

/-- Sequential processing of a list of input bytes, threading the controller
state through repeated `process_char` calls; propagates the panic case. -/
def runAll (s : UartController) : List Nat → Option UartController
  | [] => some s
  | ch :: rest =>
    match process_char s ch with
    | some (s', _) => runAll s' rest
    | none => none

/-- Baud rate written into the UART hardware configuration by `main.rs`
(`config.baudrate = UART_BAUD_RATE`). -/
def mainUartConfigBaudrate : Nat := UART_BAUD_RATE

/-- Modelled from the spec: `MIN_BAUD = 9600`.  The code under `src/` defines
no baud-rate clamp helper or bounds, only the default constant. -/
def MIN_BAUD : Nat := 9600

/-- Modelled from the spec: `MAX_BAUD = 921600`. -/
def MAX_BAUD : Nat := 921600

/-- Modelled from the spec: `clampBaudRate(rate)` is
`max(MIN_BAUD, min(rate, MAX_BAUD))`; absent from the code under `src/`. -/
def clampBaudRate (rate : Nat) : Nat := max MIN_BAUD (min rate MAX_BAUD)

/-- Modelled from the spec: the richer engine variant carrying a configured
baud-rate field next to the processed-byte counter; absent from the code
under `src/`. -/
structure EchoEngineCfg where
  processed_count : Nat
  configured_baud_rate : Nat
deriving DecidableEq

/-- Modelled from the spec: `createWithBaudRate(rate)` starts the counter at 0
and stores the clamped rate; absent from the code under `src/`. -/
def createWithBaudRate (rate : Nat) : EchoEngineCfg :=
  { processed_count := 0, configured_baud_rate := clampBaudRate rate }

/-- Byte set of the identity-echo rules: ASCII letters, digits, the defined
punctuation and symbol characters, and newline, carriage return, tab. -/
def echoBytes : List Nat :=
  List.range' 0x41 26 ++ List.range' 0x61 26 ++ List.range' 0x30 10 ++
  List.range' 0x20 16 ++ List.range' 0x3A 7 ++ List.range' 0x5B 6 ++
  List.range' 0x7B 4 ++ [0x0A, 0x0D, 0x09]

/-- Every byte of the identity-echo set is classified to itself. -/
theorem echoBytes_processOutput : ∀ b ∈ echoBytes, processOutput b = some [b] := by
  decide

/-- Classification succeeds on the whole byte range. -/
theorem processOutput_isSome (b : Nat) (h : b < 256) :
    (processOutput b).isSome = true := by
  revert h
  revert b
  decide

/-- A byte that is neither backspace, delete, nor in the identity-echo set is
classified to the empty slice. -/
theorem processOutput_unclassified : ∀ b, b < 256 →
    b = 8 ∨ b = 127 ∨ b ∈ echoBytes ∨ processOutput b = some [] := by
  decide

/-- The classification only ever produces slices of length 0, 1 or 3. -/
theorem processOutput_lengths : ∀ b, b < 256 →
    ((processOutput b).getD []).length = 0 ∨
      ((processOutput b).getD []).length = 1 ∨
      ((processOutput b).getD []).length = 3 := by
  decide

/-- A successful `process_char` call leaves the counter at the old value plus
one, reduced modulo `2 ^ 64`. -/
theorem process_char_count_mod (s : UartController) (ch : Nat)
    (r : UartController × List Nat) (h : process_char s ch = some r) :
    r.1.echo_count = (s.echo_count + 1) % U64_MOD := by
  unfold process_char at h
  rw [Option.map_eq_some'] at h
  obtain ⟨out, _, hf⟩ := h
  rw [← hf]

/-- Claim C1: for every input byte in `{0x08, 0x7F}` (backspace or delete),
`process_char` returns exactly the 3-byte erase sequence `[0x08, 0x20, 0x08]`,
in every controller state, taking priority over all other classification
rules. -/
theorem process_char_erases_on_backspace_delete (s : UartController) (b : Nat)
    (hb : b = 0x08 ∨ b = 0x7F) :
    process_char s b =
      some ({ echo_count := (s.echo_count + 1) % U64_MOD }, [0x08, 0x20, 0x08]) := by
  rcases hb with h | h <;> subst h <;> rfl

theorem process_char_erases_on_backspace_delete_witness :
    ((8 : Nat) = 0x08 ∨ (8 : Nat) = 0x7F) ∧
      process_char UartController.new 8 =
        some ({ echo_count := (UartController.new.echo_count + 1) % U64_MOD },
          [0x08, 0x20, 0x08]) :=
  ⟨Or.inl rfl,
    process_char_erases_on_backspace_delete UartController.new 8 (Or.inl rfl)⟩

/-- Claim C2: for every input byte in the identity-echo set (ASCII letters,
digits, the defined punctuation and symbol characters, newline, carriage
return, tab), `process_char` returns the one-element sequence holding the byte
unchanged. -/
theorem process_char_echoes_identity (s : UartController) (b : Nat)
    (hb : b ∈ echoBytes) :
    process_char s b =
      some ({ echo_count := (s.echo_count + 1) % U64_MOD }, [b]) := by
  have h : processOutput b = some [b] := echoBytes_processOutput b hb
  unfold process_char
  rw [h]
  rfl

theorem process_char_echoes_identity_witness :
    (65 : Nat) ∈ echoBytes ∧
      process_char UartController.new 65 =
        some ({ echo_count := (UartController.new.echo_count + 1) % U64_MOD },
          [65]) :=
  ⟨by decide, process_char_echoes_identity UartController.new 65 (by decide)⟩

/-- Claim C3: every byte not covered by the backspace/delete rule or the
identity-echo rules is classified to the empty sequence (silently dropped). -/
theorem process_char_drops_unclassified (s : UartController) (b : Nat)
    (h1 : b < 256) (h2 : b ≠ 0x08) (h3 : b ≠ 0x7F) (h4 : b ∉ echoBytes) :
    process_char s b =
      some ({ echo_count := (s.echo_count + 1) % U64_MOD }, []) := by
  rcases processOutput_unclassified b h1 with h | h | h | h
  · exact absurd h h2
  · exact absurd h h3
  · exact absurd h h4
  · unfold process_char
    rw [h]
    rfl

theorem process_char_drops_unclassified_witness :
    ((0 : Nat) < 256 ∧ (0 : Nat) ≠ 0x08 ∧ (0 : Nat) ≠ 0x7F ∧
        (0 : Nat) ∉ echoBytes) ∧
      process_char UartController.new 0 =
        some ({ echo_count := (UartController.new.echo_count + 1) % U64_MOD },
          []) :=
  ⟨⟨by decide, by decide, by decide, by decide⟩,
    process_char_drops_unclassified UartController.new 0 (by decide) (by decide)
      (by decide) (by decide)⟩

/-- Claim C4, counterexample: from the controller state whose 64-bit counter
already holds `2 ^ 64 - 1`, one further `process_char` call wraps the counter
to `0` rather than the old value plus one, so the increment-by-one law does
not hold for every starting state. -/
theorem echo_count_increment_wraps_at_max :
    ¬ ∀ (s : UartController) (r : UartController × List Nat),
        process_char s 65 = some r → r.1.echo_count = s.echo_count + 1 := by
  intro h
  have hx := h { echo_count := 2 ^ 64 - 1 } ({ echo_count := 0 }, [65])
    (by decide)
  exact absurd hx (by decide)

/-- Claim C4, amended: as long as the 64-bit counter does not overflow, every
sequence of `n` calls to `process_char` (arbitrary input bytes, arbitrary
starting state) adds exactly `n` to `echo_count`, regardless of which
classification branch fires. -/
theorem echo_count_adds_call_count (chs : List Nat) :
    ∀ (s s' : UartController), runAll s chs = some s' →
      s.echo_count + chs.length < U64_MOD →
      s'.echo_count = s.echo_count + chs.length := by
  induction chs with
  | nil =>
    intro s s' h _
    unfold runAll at h
    injection h with h
    rw [← h]
    simp
  | cons ch rest ih =>
    intro s s' h hb
    unfold runAll at h
    cases hpc : process_char s ch with
    | none =>
      rw [hpc] at h
      exact Option.noConfusion h
    | some p =>
      rw [hpc] at h
      obtain ⟨s1, out⟩ := p
      have hc : s1.echo_count = (s.echo_count + 1) % U64_MOD :=
        process_char_count_mod s ch (s1, out) hpc
      have hlt : s.echo_count + 1 < U64_MOD := by
        simp only [List.length_cons] at hb
        omega
      have hc' : s1.echo_count = s.echo_count + 1 := by
        rw [hc, Nat.mod_eq_of_lt hlt]
      have hres := ih s1 s' h
        (by rw [hc']; simp only [List.length_cons] at hb; omega)
      simp only [List.length_cons]
      omega

theorem echo_count_adds_call_count_witness :
    runAll UartController.new [65, 8, 66] = some { echo_count := 3 } ∧
      UartController.new.echo_count + ([65, 8, 66] : List Nat).length < U64_MOD ∧
      ({ echo_count := 3 } : UartController).echo_count =
        UartController.new.echo_count + ([65, 8, 66] : List Nat).length :=
  ⟨by decide, by decide,
    echo_count_adds_call_count [65, 8, 66] UartController.new
      { echo_count := 3 } (by decide) (by decide)⟩

/-- Claim C5: `process_char` is total over the 256 byte values — every byte
falls into one of the classification cases and the `unwrap` of the `CHARS`
table lookup never fails, so no call can panic. -/
theorem process_char_total (s : UartController) (b : Nat) (h : b < 256) :
    (process_char s b).isSome = true := by
  have hp := processOutput_isSome b h
  unfold process_char
  cases hpo : processOutput b with
  | none =>
    rw [hpo] at hp
    simp at hp
  | some out => rfl

theorem process_char_total_witness :
    (65 : Nat) < 256 ∧ (process_char UartController.new 65).isSome = true :=
  ⟨by decide, process_char_total UartController.new 65 (by decide)⟩

/-- Claim C6: the baud-rate clamp satisfies
`clampBaudRate r = max 9600 (min r 921600)` pointwise — below the range it
yields 9600, above it 921600, inside it the rate unchanged — and construction
with an explicit rate stores exactly the clamped rate with the counter at 0. -/
theorem clampBaudRate_clamps (r : Nat) (hr : r < 2 ^ 32) :
    (r < 9600 → clampBaudRate r = 9600) ∧
      (921600 < r → clampBaudRate r = 921600) ∧
      (9600 ≤ r → r ≤ 921600 → clampBaudRate r = r) ∧
      (createWithBaudRate r).configured_baud_rate = clampBaudRate r ∧
      (createWithBaudRate r).processed_count = 0 := by
  unfold clampBaudRate createWithBaudRate MIN_BAUD MAX_BAUD
  refine ⟨?_, ?_, ?_, rfl, rfl⟩ <;> intros <;> omega

theorem clampBaudRate_clamps_witness :
    (100 : Nat) < 2 ^ 32 ∧ clampBaudRate 100 = 9600 :=
  ⟨by decide, (clampBaudRate_clamps 100 (by decide)).1 (by decide)⟩

/-- Claim C7: a controller constructed with default settings starts with a
processed-byte count of 0, and the configured baud rate written to the UART
hardware is the default constant 115200. -/
theorem new_controller_initial_state :
    UartController.new.echo_count = 0 ∧ UART_BAUD_RATE = 115200 ∧
      mainUartConfigBaudrate = 115200 :=
  ⟨rfl, rfl, rfl⟩

/-- Claim C8: for every input byte, the sequence returned by a successful
`process_char` call has length 0, 1 or 3 — no other output length occurs. -/
theorem process_char_output_length (s : UartController) (b : Nat)
    (h : b < 256) (r : UartController × List Nat)
    (hr : process_char s b = some r) :
    r.2.length = 0 ∨ r.2.length = 1 ∨ r.2.length = 3 := by
  unfold process_char at hr
  rw [Option.map_eq_some'] at hr
  obtain ⟨out, hout, hf⟩ := hr
  have hlen := processOutput_lengths b h
  rw [hout] at hlen
  simp only [Option.getD_some] at hlen
  rw [← hf]
  exact hlen

theorem process_char_output_length_witness :
    (8 : Nat) < 256 ∧
      ((({ echo_count := 1 }, [0x08, 0x20, 0x08]) :
            UartController × List Nat).2.length = 0 ∨
        (({ echo_count := 1 }, [0x08, 0x20, 0x08]) :
            UartController × List Nat).2.length = 1 ∨
        (({ echo_count := 1 }, [0x08, 0x20, 0x08]) :
            UartController × List Nat).2.length = 3) :=
  ⟨by decide,
    process_char_output_length UartController.new 8 (by decide)
      ({ echo_count := 1 }, [0x08, 0x20, 0x08]) (by decide)⟩

/-- Claim C9: the echoed byte sequence depends only on the input byte, never
on the controller state — any two states produce identical output for the
same byte. -/
theorem process_char_output_state_independent (s1 s2 : UartController)
    (b : Nat) :
    (process_char s1 b).map Prod.snd = (process_char s2 b).map Prod.snd := by
  unfold process_char
  cases processOutput b <;> rfl

/-- Claim C10: default construction is identical to explicit construction —
`UartController.default` equals `UartController.new`, with echo count 0. -/
theorem default_construction_eq_new :
    UartController.default = UartController.new ∧
      UartController.default.echo_count = 0 :=
  ⟨rfl, rfl⟩

end RP2350Uart
